import Mathlib

/-!
Verification of the Yelp harvesting pipeline in `src/data/make-dataset.py`.

The embedding models:
- Python `dict` field access (`d.get(k)`, `d.get(k, default)`, `d.get(k, []) or []`)
  with the three-state type `JField` (key absent / key present with value `None` /
  key present with a value);
- RFC 1321 md5 over byte lists (the source calls `hashlib.md5` on the UTF-8
  encoded photo URL);
- the response normalization of `get_yelp_data` (business / review / photo
  records with category de-duplication via Python `set`);
- the pagination orchestration of `get_yelp_data` (`for location; for offset in
  range(0, count, limit)`), with the network modelled as an oracle
  `String → Nat → HttpResponse` and the list of issued fetches made explicit;
- the photo cache `download_photos`, with the target directory modelled as an
  association list from file name to file content and the download oracle
  returning a status code and a body; the returned second component is the
  list of URLs for which a download request was issued.

Machine integers do not occur (Python ints are unbounded); the md5 internals
work on `Nat` reduced `% 2^32` exactly where the algorithm does. Python floats
in the payload (ratings, coordinates) are only ever copied, never computed
with, so they are represented by `Rat` as parsed JSON numbers.
-/

/-! ## md5 (RFC 1321), as `hashlib.md5(x.encode("utf-8")).hexdigest()` -/

def M32 : Nat := 4294967296

/-- 32-bit left rotation on a `Nat` already reduced below `2^32`. -/
def rotl32 (x n : Nat) : Nat :=
  ((x <<< n) % M32) ||| (x >>> (32 - n))

/-- The md5 sine-derived round constants. -/
def md5K : List Nat :=
  [0xd76aa478, 0xe8c7b756, 0x242070db, 0xc1bdceee,
   0xf57c0faf, 0x4787c62a, 0xa8304613, 0xfd469501,
   0x698098d8, 0x8b44f7af, 0xffff5bb1, 0x895cd7be,
   0x6b901122, 0xfd987193, 0xa679438e, 0x49b40821,
   0xf61e2562, 0xc040b340, 0x265e5a51, 0xe9b6c7aa,
   0xd62f105d, 0x02441453, 0xd8a1e681, 0xe7d3fbc8,
   0x21e1cde6, 0xc33707d6, 0xf4d50d87, 0x455a14ed,
   0xa9e3e905, 0xfcefa3f8, 0x676f02d9, 0x8d2a4c8a,
   0xfffa3942, 0x8771f681, 0x6d9d6122, 0xfde5380c,
   0xa4beea44, 0x4bdecfa9, 0xf6bb4b60, 0xbebfbc70,
   0x289b7ec6, 0xeaa127fa, 0xd4ef3085, 0x04881d05,
   0xd9d4d039, 0xe6db99e5, 0x1fa27cf8, 0xc4ac5665,
   0xf4292244, 0x432aff97, 0xab9423a7, 0xfc93a039,
   0x655b59c3, 0x8f0ccc92, 0xffeff47d, 0x85845dd1,
   0x6fa87e4f, 0xfe2ce6e0, 0xa3014314, 0x4e0811a1,
   0xf7537e82, 0xbd3af235, 0x2ad7d2bb, 0xeb86d391]

/-- The md5 per-round left-rotation amounts. -/
def md5S : List Nat :=
  [7, 12, 17, 22, 7, 12, 17, 22, 7, 12, 17, 22, 7, 12, 17, 22,
   5, 9, 14, 20, 5, 9, 14, 20, 5, 9, 14, 20, 5, 9, 14, 20,
   4, 11, 16, 23, 4, 11, 16, 23, 4, 11, 16, 23, 4, 11, 16, 23,
   6, 10, 15, 21, 6, 10, 15, 21, 6, 10, 15, 21, 6, 10, 15, 21]

/-- Group a byte list into 32-bit little-endian words. -/
def toWordsLE : List Nat → List Nat
  | b0 :: b1 :: b2 :: b3 :: rest =>
      (b0 ||| (b1 <<< 8) ||| (b2 <<< 16) ||| (b3 <<< 24)) :: toWordsLE rest
  | _ => []

/-- md5 padding: `0x80`, zeros to 56 mod 64, then the bit length in 8
little-endian bytes. -/
def md5Pad (msg : List Nat) : List Nat :=
  let len := msg.length
  let k := (120 - ((len + 1) % 64)) % 64
  let bitLen := len * 8
  msg ++ [0x80] ++ List.replicate k 0 ++
    (List.range 8).map (fun i => (bitLen >>> (8 * i)) % 256)

/-- Split a (padded) byte list into 64-byte blocks. -/
def chunks64 (l : List Nat) : List (List Nat) :=
  (List.range (l.length / 64)).map (fun i => (l.drop (64 * i)).take 64)

/-- One of the 64 md5 operations on the running state `(a, b, c, d)`. -/
def md5Step (block : List Nat) (st : Nat × Nat × Nat × Nat) (i : Nat) :
    Nat × Nat × Nat × Nat :=
  let (a, b, c, d) := st
  let f :=
    if i < 16 then (b &&& c) ||| ((b ^^^ 0xffffffff) &&& d)
    else if i < 32 then (d &&& b) ||| ((d ^^^ 0xffffffff) &&& c)
    else if i < 48 then b ^^^ c ^^^ d
    else c ^^^ (b ||| (d ^^^ 0xffffffff))
  let g :=
    if i < 16 then i
    else if i < 32 then (5 * i + 1) % 16
    else if i < 48 then (3 * i + 5) % 16
    else (7 * i) % 16
  let tmp := (a + f + md5K.getD i 0 + block.getD g 0) % M32
  (d, (b + rotl32 tmp (md5S.getD i 0)) % M32, b, c)

/-- Process one 64-byte block (given as 16 words) into the md5 state. -/
def md5Block (st : Nat × Nat × Nat × Nat) (block : List Nat) :
    Nat × Nat × Nat × Nat :=
  let (a, b, c, d) := (List.range 64).foldl (md5Step block) st
  ((st.1 + a) % M32, (st.2.1 + b) % M32, (st.2.2.1 + c) % M32, (st.2.2.2 + d) % M32)

/-- md5 digest of a byte list, as 16 bytes. -/
def md5Digest (msg : List Nat) : List Nat :=
  let blocks := chunks64 (md5Pad msg)
  let st := blocks.foldl (fun st blk => md5Block st (toWordsLE blk))
    (0x67452301, 0xefcdab89, 0x98badcfe, 0x10325476)
  ([st.1, st.2.1, st.2.2.1, st.2.2.2].map
    (fun w => (List.range 4).map (fun i => (w >>> (8 * i)) % 256))).flatten

/-- Lower-case hex digit. -/
def hexDigit (n : Nat) : Char :=
  if n < 10 then Char.ofNat (48 + n) else Char.ofNat (87 + n)

/-- Lower-case hex string of an md5 digest, as Python `hexdigest()`. -/
def md5HexBytes (msg : List Nat) : String :=
  String.mk
    (((md5Digest msg).map (fun b => [hexDigit (b / 16), hexDigit (b % 16)])).flatten)

/-- UTF-8 encoding of one Unicode code point. -/
def utf8Bytes (c : Nat) : List Nat :=
  if c < 0x80 then [c]
  else if c < 0x800 then
    [0xc0 ||| (c >>> 6), 0x80 ||| (c &&& 0x3f)]
  else if c < 0x10000 then
    [0xe0 ||| (c >>> 12), 0x80 ||| ((c >>> 6) &&& 0x3f), 0x80 ||| (c &&& 0x3f)]
  else
    [0xf0 ||| (c >>> 18), 0x80 ||| ((c >>> 12) &&& 0x3f),
     0x80 ||| ((c >>> 6) &&& 0x3f), 0x80 ||| (c &&& 0x3f)]

/-- UTF-8 byte list of a string, as Python `s.encode("utf-8")`. -/
def strBytes (s : String) : List Nat :=
  ((s.data.map Char.toNat).map utf8Bytes).flatten

/-- `md5(s.encode("utf-8")).hexdigest()`. -/
def md5HexOfString (s : String) : String :=
  md5HexBytes (strBytes s)

/-! ## Python `dict` field semantics -/

/-- Errors raised inside `get_yelp_data` (the source raises bare `Exception`s
for the first two; the third models the `TypeError` / `AttributeError` that
Python raises when a present-but-`None` value is iterated or attribute-accessed,
and the `TypeError` of `None + str`). -/
inductive YelpError where
  | transport (status : Nat)
  | api (errors : List String)
  | typeError (msg : String)
deriving DecidableEq, Repr

/-- A JSON object field: the key may be absent, present with `null`, or
present with a value. -/
inductive JField (α : Type) where
  | absent : JField α
  | null : JField α
  | val : α → JField α
deriving DecidableEq, Repr

namespace JField

/-- `d.get(k)`: `None` for both an absent key and a `null` value. -/
def toOption : JField α → Option α
  | .val v => some v
  | _ => none

/-- `for x in d.get(k, [])`: absent defaults to `[]`, a `null` value raises
`TypeError` when iterated. -/
def iterDefault : JField (List α) → Except YelpError (List α)
  | .absent => .ok []
  | .null => .error (.typeError "NoneType object is not iterable")
  | .val l => .ok l

/-- `d.get(k, []) or []`: absent and `null` (falsy) both give `[]`. -/
def iterOrEmpty : JField (List α) → List α
  | .absent => []
  | .null => []
  | .val l => l

/-- `d.get(k, empty).get(...)`: absent defaults to `empty`, a `null` value
raises `AttributeError` on the subsequent `.get`. -/
def getObj (empty : α) : JField α → Except YelpError α
  | .absent => .ok empty
  | .null => .error (.typeError "NoneType object has no attribute get")
  | .val v => .ok v

end JField

/-! ## Payload shape (the nested JSON consumed by `get_yelp_data`) -/

/-- A `parent_categories` entry: an object with an `alias` field. -/
structure ParentCat where
  alias_ : JField String
deriving DecidableEq, Repr

/-- A `categories` entry: `alias` plus a list of parent categories. -/
structure CategoryEntry where
  alias_ : JField String
  parent_categories : JField (List ParentCat)
deriving DecidableEq, Repr

/-- The `location` object of a business. -/
structure LocationObj where
  city : JField String
  state : JField String
  postal_code : JField String
  country : JField String
deriving DecidableEq, Repr

/-- The object that Python `d.get("location", \x7b\x7d)` defaults to. -/
def LocationObj.empty : LocationObj :=
  ⟨.absent, .absent, .absent, .absent⟩

/-- The `coordinates` object of a business. -/
structure Coordinates where
  latitude : JField Rat
  longitude : JField Rat
deriving DecidableEq, Repr

/-- The object that Python `d.get("coordinates", \x7b\x7d)` defaults to. -/
def Coordinates.empty : Coordinates :=
  ⟨.absent, .absent⟩

/-- A `reviews` entry: `text` and `rating`. -/
structure ReviewEntry where
  text : JField String
  rating : JField Rat
deriving DecidableEq, Repr

/-- One business entry of a page payload. -/
structure Business where
  alias_ : JField String
  review_count : JField Int
  rating : JField Rat
  price : JField String
  location : JField LocationObj
  coordinates : JField Coordinates
  categories : JField (List CategoryEntry)
  photos : JField (List String)
  reviews : JField (List ReviewEntry)
deriving DecidableEq, Repr

/-- The `search` object of a page payload. -/
structure SearchObj where
  business : JField (List Business)
deriving DecidableEq, Repr

/-- The object that `data.get("data", \x7b\x7d)` defaults to, for `search`. -/
def SearchObj.empty : SearchObj :=
  ⟨.absent⟩

/-- The `data` object of a page payload. -/
structure DataObj where
  search : JField SearchObj
deriving DecidableEq, Repr

/-- The empty object as a `DataObj`. -/
def DataObj.empty : DataObj :=
  ⟨.absent⟩

/-- A parsed page payload: `errors` (whose mere key presence makes the fetch
fail, per `"errors" in data`) and `data`. -/
structure Payload where
  errors : JField (List String)
  data_ : JField DataObj
deriving DecidableEq, Repr

/-- An HTTP response from the search endpoint: a status code and the parsed
JSON body. -/
structure HttpResponse where
  status : Nat
  body : Payload
deriving DecidableEq, Repr

/-! ## Output records -/

/-- One row of the `businesses` dataframe. -/
structure BusinessRecord where
  business_alias : Option String
  business_review_count : Option Int
  business_rating : Option Rat
  business_price : Nat
  business_city : Option String
  business_state : Option String
  business_postal_code : Option String
  business_country : Option String
  business_latitude : Option Rat
  business_longitude : Option Rat
  business_categories : List (Option String)
  business_parent_categories : List (Option String)
deriving DecidableEq, Repr

/-- One row of the `reviews` dataframe. -/
structure ReviewRecord where
  business_alias : Option String
  review_text : Option String
  review_rating : Option Rat
deriving DecidableEq, Repr

/-- One row of the `photos` dataframe. -/
structure PhotoRecord where
  business_alias : Option String
  photo_url : String
  file_name : String
deriving DecidableEq, Repr

/-- The three accumulated dataframes of a harvest. -/
structure Recs where
  businesses : List BusinessRecord
  reviews : List ReviewRecord
  photos : List PhotoRecord
deriving DecidableEq, Repr

/-- The initial empty dataframes. -/
def Recs.empty : Recs := ⟨[], [], []⟩

/-- Row-wise concatenation of two accumulated outputs. -/
def Recs.app (x y : Recs) : Recs :=
  ⟨x.businesses ++ y.businesses, x.reviews ++ y.reviews, x.photos ++ y.photos⟩

/-! ## Normalization of one business entry -/

/-- Monadic map over `Except`, processing the list left to right and failing
on the first error — the effect order of a Python `for` loop or comprehension. -/
def exMapM (f : α → Except YelpError β) : List α → Except YelpError (List β)
  | [] => .ok []
  | x :: xs => do
    let y ← f x
    let ys ← exMapM f xs
    pure (y :: ys)

/-- `len(business.get("price")) if business.get("price") is not None else 0`. -/
def priceTier (price : JField String) : Nat :=
  match price.toOption with
  | some s => s.length
  | none => 0

/-- `list(set(cat.get("alias") for cat in cats))`: category aliases with
duplicates collapsed by the Python `set`. -/
def catAliases (cats : List CategoryEntry) : List (Option String) :=
  (cats.map (fun c => c.alias_.toOption)).dedup

/-- `[parent_cat.get("alias") for cat in cats for parent_cat in
cat.get("parent_categories", [])]`, before the `set` collapses duplicates. -/
def parentAliasesRaw (cats : List CategoryEntry) :
    Except YelpError (List (Option String)) := do
  let ls ← exMapM (fun c => c.parent_categories.iterDefault) cats
  pure ((ls.map (fun ps => ps.map (fun p => p.alias_.toOption))).flatten)

/-- The dict appended to the `businesses` dataframe for one business entry. -/
def mkBusinessRecord (b : Business) : Except YelpError BusinessRecord := do
  let loc ← b.location.getObj LocationObj.empty
  let coords ← b.coordinates.getObj Coordinates.empty
  let cats ← b.categories.iterDefault
  let parents ← parentAliasesRaw cats
  pure
    { business_alias := b.alias_.toOption
      business_review_count := b.review_count.toOption
      business_rating := b.rating.toOption
      business_price := priceTier b.price
      business_city := loc.city.toOption
      business_state := loc.state.toOption
      business_postal_code := loc.postal_code.toOption
      business_country := loc.country.toOption
      business_latitude := coords.latitude.toOption
      business_longitude := coords.longitude.toOption
      business_categories := catAliases cats
      business_parent_categories := parents.dedup }

/-- The photo cache key: `business_alias + "_" + md5(url.encode()).hexdigest()
+ ".jpg"`. -/
def fileName (a url : String) : String :=
  a ++ "_" ++ md5HexOfString url ++ ".jpg"

/-- One row appended to the `photos` dataframe; building `file_name` raises
`TypeError` when the business alias is `None` (`None + "_"`). -/
def mkPhotoRecord (aliasF : JField String) (url : String) :
    Except YelpError PhotoRecord :=
  match aliasF.toOption with
  | some a =>
      .ok { business_alias := some a, photo_url := url, file_name := fileName a url }
  | none => .error (.typeError "unsupported operand type for +")

/-- `for photo in business.get("photos", []) or []`: photo rows of one
business. -/
def mkPhotoRecords (b : Business) : Except YelpError (List PhotoRecord) :=
  exMapM (mkPhotoRecord b.alias_) b.photos.iterOrEmpty

/-- One row appended to the `reviews` dataframe. -/
def mkReviewRecord (aliasF : JField String) (r : ReviewEntry) : ReviewRecord :=
  { business_alias := aliasF.toOption
    review_text := r.text.toOption
    review_rating := r.rating.toOption }

/-- `for review in business.get("reviews", []) or []`: review rows of one
business. -/
def mkReviewRecords (b : Business) : List ReviewRecord :=
  b.reviews.iterOrEmpty.map (mkReviewRecord b.alias_)

/-- Rows produced for one business entry, in source order: the business
row, then its photo rows, then its review rows. -/
def normalizeBusiness (b : Business) :
    Except YelpError (BusinessRecord × List ReviewRecord × List PhotoRecord) := do
  let brec ← mkBusinessRecord b
  let pr ← mkPhotoRecords b
  pure (brec, mkReviewRecords b, pr)

/-- `data.get("data", \x7b\x7d).get("search", \x7b\x7d).get("business", [])`. -/
def getBusinessList (p : Payload) : Except YelpError (List Business) := do
  let d ← p.data_.getObj DataObj.empty
  let s ← d.search.getObj SearchObj.empty
  s.business.iterDefault

/-- Rows produced by one page payload: the per-business rows concatenated in
page order. -/
def normalizePage (p : Payload) : Except YelpError Recs := do
  let bs ← getBusinessList p
  let outs ← exMapM normalizeBusiness bs
  pure ⟨outs.map (fun o => o.1),
        (outs.map (fun o => o.2.1)).flatten,
        (outs.map (fun o => o.2.2)).flatten⟩

/-! ## Pagination orchestration -/

/-- `count = 200`: the Yelp maximum total result count. -/
def yelpCount : Nat := 200

/-- `limit = 50`: the Yelp maximum page size. -/
def yelpLimit : Nat := 50

/-- Python `range(0, stop, step)` for `step > 0`. -/
def pyRangeStep (stop step : Nat) : List Nat :=
  (List.range ((stop + step - 1) / step)).map (fun i => i * step)

/-- The `(location, offset)` pairs of the nested harvest loop, in iteration
order. -/
def harvestPairs (locations : List String) : List (String × Nat) :=
  (locations.map
    (fun l => (pyRangeStep yelpCount yelpLimit).map (fun o => (l, o)))).flatten

/-- One page fetch: POST the query, raise on non-200 status, parse, raise when
the payload carries an `errors` key. -/
def pageFetch (net : String → Nat → HttpResponse) (location : String)
    (offset : Nat) : Except YelpError Payload :=
  let resp := net location offset
  if resp.status ≠ 200 then .error (.transport resp.status)
  else
    match resp.body.errors with
    | .absent => .ok resp.body
    | .null => .error (.api [])
    | .val es => .error (.api es)

/-- Fetch one page and normalize it into rows. -/
def processPage (net : String → Nat → HttpResponse) (location : String)
    (offset : Nat) : Except YelpError Recs := do
  let p ← pageFetch net location offset
  normalizePage p

/-- The harvest loop over the remaining `(location, offset)` pairs, starting
from the rows accumulated so far. Returns the list of pairs a fetch was issued
for, and either the final rows or the first error (which aborts the loop). -/
def harvestGo (net : String → Nat → HttpResponse) :
    List (String × Nat) → Recs → List (String × Nat) × Except YelpError Recs
  | [], acc => ([], .ok acc)
  | p :: rest, acc =>
    match processPage net p.1 p.2 with
    | .error e => ([p], .error e)
    | .ok r =>
      let out := harvestGo net rest (acc.app r)
      (p :: out.1, out.2)

/-- `get_yelp_data`: iterate locations and offsets, fetching and normalizing
each page; the first component is the trace of issued fetches. -/
def get_yelp_data (net : String → Nat → HttpResponse) (locations : List String) :
    List (String × Nat) × Except YelpError Recs :=
  harvestGo net (harvestPairs locations) Recs.empty

/-! ## Photo cache (`download_photos`) -/

/-- The content of the target directory: an association list from file name to
file content (a write shadows an earlier entry for the same name). -/
abbrev FS := List (String × String)

/-- `os.path.exists` on the target directory entry for `name`. -/
def FS.exists (fs : FS) (name : String) : Bool :=
  (fs.lookup name).isSome

/-- `open(file_path, "wb").write(content)`. -/
def FS.write (fs : FS) (name content : String) : FS :=
  (name, content) :: fs

/-- `download_photos`: for each photo row, skip it when its file already
exists; otherwise issue a GET (recorded in the second component), skip the row
with a warning on non-200 status, and write the body on success. -/
def download_photos (net : String → Nat × String) :
    List PhotoRecord → FS → FS × List String
  | [], fs => (fs, [])
  | r :: rest, fs =>
    if fs.exists r.file_name then
      download_photos net rest fs
    else
      let resp := net r.photo_url
      if resp.1 = 200 then
        let out := download_photos net rest (fs.write r.file_name resp.2)
        (out.1, r.photo_url :: out.2)
      else
        let out := download_photos net rest fs
        (out.1, r.photo_url :: out.2)


/-! ## Concrete fixtures used by witnesses and counterexamples -/

/-- Referential integrity of an accumulated output: every review row and every
photo row carries the alias of some business row. -/
def Recs.intact (r : Recs) : Prop :=
  (∀ rv ∈ r.reviews, ∃ b ∈ r.businesses, rv.business_alias = b.business_alias) ∧
  (∀ ph ∈ r.photos, ∃ b ∈ r.businesses, ph.business_alias = b.business_alias)

/-- A network oracle always answering 200 with an empty search result. -/
def okNet : String → Nat → HttpResponse :=
  fun _ _ => { status := 200, body := { errors := .absent, data_ := .absent } }

/-- A network oracle always answering 500. -/
def badNet : String → Nat → HttpResponse :=
  fun _ _ => { status := 500, body := { errors := .absent, data_ := .absent } }

/-- A business entry with every field absent. -/
def emptyBiz : Business :=
  { alias_ := .absent, review_count := .absent, rating := .absent,
    price := .absent, location := .absent, coordinates := .absent,
    categories := .absent, photos := .absent, reviews := .absent }

/-- The business row produced from `emptyBiz`. -/
def emptyBrec : BusinessRecord :=
  { business_alias := none, business_review_count := none,
    business_rating := none, business_price := 0, business_city := none,
    business_state := none, business_postal_code := none,
    business_country := none, business_latitude := none,
    business_longitude := none, business_categories := [],
    business_parent_categories := [] }

/-- Two categories `a` and `b` both listing parent `food`. -/
def exCats : List CategoryEntry :=
  [{ alias_ := JField.val "a",
     parent_categories := JField.val [{ alias_ := JField.val "food" }] },
   { alias_ := JField.val "b",
     parent_categories := JField.val [{ alias_ := JField.val "food" }] }]

/-- The raw (pre-`set`) parent alias list of `exCats`. -/
def exParentsRaw : List (Option String) := [some "food", some "food"]

/-- A business whose two categories `a` and `b` both list parent `food`. -/
def exBiz : Business := { emptyBiz with categories := JField.val exCats }

/-- The business row produced from `exBiz`. -/
def exBrec : BusinessRecord :=
  { emptyBrec with
      business_categories := [some "a", some "b"]
      business_parent_categories := [some "food"] }

/-- A business with a two-dollar price tag. -/
def bizP2 : Business := { emptyBiz with price := .val "$$" }

/-- The business row produced from `bizP2`. -/
def brecP2 : BusinessRecord := { emptyBrec with business_price := 2 }

/-- A business with an alias and one photo URL. -/
def photoBiz : Business :=
  { emptyBiz with
      alias_ := JField.val "biz"
      photos := JField.val ["u1"] }

/-- The photo row produced from `photoBiz`. -/
def exPhotoRec : PhotoRecord :=
  { business_alias := some "biz", photo_url := "u1", file_name := fileName "biz" "u1" }

/-- A business whose `photos` and `reviews` keys are present but `null`. -/
def nullBiz : Business :=
  { emptyBiz with
      photos := JField.null
      reviews := JField.null }

/-- A business whose `categories` key is present but `null`. -/
def catNullBiz : Business := { emptyBiz with categories := .null }

/-- A photo row for the download cache fixtures. -/
def rec5 : PhotoRecord :=
  { business_alias := some "b", photo_url := "u", file_name := "b.jpg" }

/-- A second photo row with a distinct URL and file name. -/
def rec8 : PhotoRecord :=
  { business_alias := some "b", photo_url := "u2", file_name := "b2.jpg" }

/-- A download oracle that always fails with 404. -/
def failNet : String → Nat × String := fun _ => (404, "")

/-- A download oracle that always succeeds with 200. -/
def goodNet : String → Nat × String := fun _ => (200, "body")

/-- A download oracle failing exactly on the URL `u`. -/
def mixedNet : String → Nat × String :=
  fun url => if url = "u" then (404, "") else (200, "body")

/-! ## Helper lemmas -/


theorem exMapM_nil (f : α → Except YelpError β) : exMapM f [] = .ok [] := rfl

theorem exMapM_cons (f : α → Except YelpError β) (x : α) (xs : List α) :
    exMapM f (x :: xs) =
      (f x).bind (fun y => (exMapM f xs).bind (fun ys => .ok (y :: ys))) := by
  simp [exMapM, Bind.bind, Pure.pure, Except.pure]

theorem exMapM_mem_of_ok {f : α → Except YelpError β} {l : List α}
    {ys : List β} (h : exMapM f l = .ok ys) :
    ∀ y ∈ ys, ∃ x ∈ l, f x = .ok y := by
  induction l generalizing ys with
  | nil =>
    simp [exMapM] at h
    intro y hy
    rw [h] at hy
    cases hy
  | cons x xs ih =>
    rw [exMapM_cons] at h
    cases hx : f x with
    | error e => simp [hx, Except.bind] at h
    | ok y0 =>
      cases hxs : exMapM f xs with
      | error e => simp [hx, hxs, Except.bind] at h
      | ok ys0 =>
        simp [hx, hxs, Except.bind] at h
        intro y hy
        rw [← h] at hy
        rcases List.mem_cons.mp hy with h1 | h2
        · exact ⟨x, List.mem_cons_self x xs, h1 ▸ hx⟩
        · rcases ih hxs y h2 with ⟨x2, hx2, hfx2⟩
          exact ⟨x2, List.mem_cons_of_mem x hx2, hfx2⟩

theorem exMapM_error_of_mem {f : α → Except YelpError β} {l : List α} {x : α}
    {e : YelpError} (hx : x ∈ l) (hf : f x = .error e) :
    ∃ e2, exMapM f l = .error e2 := by
  induction l with
  | nil => cases hx
  | cons y ys ih =>
    rw [exMapM_cons]
    cases hy : f y with
    | error e3 => exact ⟨e3, by simp [Except.bind]⟩
    | ok v =>
      rcases List.mem_cons.mp hx with h1 | h2
      · rw [h1] at hf; rw [hf] at hy; cases hy
      · rcases ih h2 with ⟨e2, he2⟩
        exact ⟨e2, by simp [Except.bind, he2]⟩

theorem harvestGo_res (net : String → Nat → HttpResponse)
    (ps : List (String × Nat)) (acc : Recs) :
    (harvestGo net ps acc).2 =
      Except.map (fun rs => rs.foldl Recs.app acc)
        (exMapM (fun p => processPage net p.1 p.2) ps) := by
  induction ps generalizing acc with
  | nil => rfl
  | cons p rest ih =>
    rw [exMapM_cons]
    cases hp : processPage net p.1 p.2 with
    | error e => simp [harvestGo, hp, Except.bind, Except.map]
    | ok r =>
      simp only [harvestGo, hp, Except.bind]
      rw [ih (acc.app r)]
      cases hrest : exMapM (fun p => processPage net p.1 p.2) rest with
      | error e => simp [Except.map, Except.bind]
      | ok rs => simp [Except.map, Except.bind, List.foldl_cons]

theorem harvestGo_trace_of_ok (net : String → Nat → HttpResponse)
    (ps : List (String × Nat)) (acc : Recs) (r : Recs)
    (h : (harvestGo net ps acc).2 = .ok r) :
    (harvestGo net ps acc).1 = ps := by
  induction ps generalizing acc with
  | nil => rfl
  | cons p rest ih =>
    cases hp : processPage net p.1 p.2 with
    | error e => simp [harvestGo, hp] at h
    | ok rr =>
      simp only [harvestGo, hp] at h ⊢
      simp only [List.cons.injEq, true_and]
      exact ih _ h

theorem mkBusinessRecord_ok {b : Business} {brec : BusinessRecord}
    (h : mkBusinessRecord b = .ok brec) :
    ∃ loc coords cats parents,
      b.location.getObj LocationObj.empty = .ok loc ∧
      b.coordinates.getObj Coordinates.empty = .ok coords ∧
      b.categories.iterDefault = .ok cats ∧
      parentAliasesRaw cats = .ok parents ∧
      brec =
        { business_alias := b.alias_.toOption
          business_review_count := b.review_count.toOption
          business_rating := b.rating.toOption
          business_price := priceTier b.price
          business_city := loc.city.toOption
          business_state := loc.state.toOption
          business_postal_code := loc.postal_code.toOption
          business_country := loc.country.toOption
          business_latitude := coords.latitude.toOption
          business_longitude := coords.longitude.toOption
          business_categories := catAliases cats
          business_parent_categories := parents.dedup } := by
  cases hl : b.location.getObj LocationObj.empty with
  | error e => simp [mkBusinessRecord, hl, Except.bind, Bind.bind] at h
  | ok loc =>
  cases hco : b.coordinates.getObj Coordinates.empty with
  | error e => simp [mkBusinessRecord, hl, hco, Except.bind, Bind.bind] at h
  | ok coords =>
  cases hca : b.categories.iterDefault with
  | error e => simp [mkBusinessRecord, hl, hco, hca, Except.bind, Bind.bind] at h
  | ok cats =>
  cases hpa : parentAliasesRaw cats with
  | error e => simp [mkBusinessRecord, hl, hco, hca, hpa, Except.bind, Bind.bind] at h
  | ok parents =>
    refine ⟨loc, coords, cats, parents, rfl, rfl, rfl, hpa, ?_⟩
    simp [mkBusinessRecord, hl, hco, hca, hpa, Except.bind, Bind.bind,
      Pure.pure, Except.pure] at h
    exact h.symm

theorem mkPhotoRecord_ok {aliasF : JField String} {url : String}
    {ph : PhotoRecord} (h : mkPhotoRecord aliasF url = .ok ph) :
    ∃ a, aliasF.toOption = some a ∧
      ph = { business_alias := some a, photo_url := url, file_name := fileName a url } := by
  cases ha : aliasF.toOption with
  | none => simp [mkPhotoRecord, ha] at h
  | some a =>
    simp [mkPhotoRecord, ha] at h
    exact ⟨a, rfl, h.symm⟩

theorem normalizeBusiness_ok {b : Business} {brec : BusinessRecord}
    {rr : List ReviewRecord} {pr : List PhotoRecord}
    (h : normalizeBusiness b = .ok (brec, rr, pr)) :
    mkBusinessRecord b = .ok brec ∧ mkPhotoRecords b = .ok pr ∧
      rr = mkReviewRecords b := by
  cases h1 : mkBusinessRecord b with
  | error e => simp [normalizeBusiness, h1, Except.bind, Bind.bind] at h
  | ok brec0 =>
  cases h2 : mkPhotoRecords b with
  | error e => simp [normalizeBusiness, h1, h2, Except.bind, Bind.bind] at h
  | ok pr0 =>
    simp [normalizeBusiness, h1, h2, Except.bind, Bind.bind, Pure.pure,
      Except.pure] at h
    obtain ⟨hb, hr, hp⟩ := h
    subst hb
    subst hr
    subst hp
    exact ⟨rfl, rfl, rfl⟩

theorem normalizePage_ok {p : Payload} {out : Recs}
    (h : normalizePage p = .ok out) :
    ∃ bs outs, getBusinessList p = .ok bs ∧
      exMapM normalizeBusiness bs = .ok outs ∧
      out = ⟨outs.map (fun o => o.1),
             (outs.map (fun o => o.2.1)).flatten,
             (outs.map (fun o => o.2.2)).flatten⟩ := by
  cases h1 : getBusinessList p with
  | error e => simp [normalizePage, h1, Except.bind, Bind.bind] at h
  | ok bs =>
  cases h2 : exMapM normalizeBusiness bs with
  | error e => simp [normalizePage, h1, h2, Except.bind, Bind.bind] at h
  | ok outs =>
    refine ⟨bs, outs, rfl, h2, ?_⟩
    simp [normalizePage, h1, h2, Except.bind, Bind.bind, Pure.pure,
      Except.pure] at h
    exact h.symm

theorem exceptMap_ok {f : α → β} {e : Except YelpError α} {y : β}
    (h : Except.map f e = .ok y) : ∃ v, e = .ok v ∧ y = f v := by
  cases e with
  | error e0 => simp [Except.map] at h
  | ok v =>
    simp [Except.map] at h
    exact ⟨v, rfl, h.symm⟩

theorem processPage_ok {net : String → Nat → HttpResponse} {l : String}
    {o : Nat} {out : Recs} (h : processPage net l o = .ok out) :
    ∃ p, pageFetch net l o = .ok p ∧ normalizePage p = .ok out := by
  cases h1 : pageFetch net l o with
  | error e => simp [processPage, h1, Except.bind, Bind.bind] at h
  | ok p =>
    refine ⟨p, rfl, ?_⟩
    simpa [processPage, h1, Except.bind, Bind.bind] using h

theorem mkBusinessRecord_alias {b : Business} {brec : BusinessRecord}
    (h : mkBusinessRecord b = .ok brec) :
    brec.business_alias = b.alias_.toOption := by
  obtain ⟨loc, coords, cats, parents, _, _, _, _, hrec⟩ := mkBusinessRecord_ok h
  rw [hrec]

theorem normalizeBusiness_alias {b : Business} {brec : BusinessRecord}
    {rr : List ReviewRecord} {pr : List PhotoRecord}
    (h : normalizeBusiness b = .ok (brec, rr, pr)) :
    (∀ rv ∈ rr, rv.business_alias = brec.business_alias) ∧
      (∀ ph ∈ pr, ph.business_alias = brec.business_alias) := by
  obtain ⟨h1, h2, h3⟩ := normalizeBusiness_ok h
  have balias := mkBusinessRecord_alias h1
  constructor
  · intro rv hrv
    rw [h3] at hrv
    rcases List.mem_map.mp hrv with ⟨re, _, hre⟩
    rw [← hre, balias]
    rfl
  · intro ph hph
    rcases exMapM_mem_of_ok h2 ph hph with ⟨url, _, hurl⟩
    rcases mkPhotoRecord_ok hurl with ⟨a, ha, hrec⟩
    rw [hrec, balias, ha]

theorem Recs.empty_intact : Recs.empty.intact := by
  constructor <;> intro x hx <;> cases hx

theorem Recs.app_intact {x y : Recs} (hx : x.intact) (hy : y.intact) :
    (x.app y).intact := by
  constructor
  · intro rv hrv
    rcases List.mem_append.mp hrv with h | h
    · rcases hx.1 rv h with ⟨b, hb, he⟩
      exact ⟨b, List.mem_append_left _ hb, he⟩
    · rcases hy.1 rv h with ⟨b, hb, he⟩
      exact ⟨b, List.mem_append_right _ hb, he⟩
  · intro ph hph
    rcases List.mem_append.mp hph with h | h
    · rcases hx.2 ph h with ⟨b, hb, he⟩
      exact ⟨b, List.mem_append_left _ hb, he⟩
    · rcases hy.2 ph h with ⟨b, hb, he⟩
      exact ⟨b, List.mem_append_right _ hb, he⟩

theorem foldl_app_intact (rs : List Recs) (acc : Recs) (hacc : acc.intact)
    (hrs : ∀ r ∈ rs, r.intact) : (rs.foldl Recs.app acc).intact := by
  induction rs generalizing acc with
  | nil => exact hacc
  | cons r rest ih =>
    exact ih (acc.app r) (Recs.app_intact hacc (hrs r (List.mem_cons_self r rest)))
      (fun r2 h2 => hrs r2 (List.mem_cons_of_mem r h2))

theorem normalizePage_intact {p : Payload} {out : Recs}
    (h : normalizePage p = .ok out) : out.intact := by
  obtain ⟨bs, outs, _, h2, hout⟩ := normalizePage_ok h
  subst hout
  constructor
  · intro rv hrv
    rcases List.mem_flatten.mp hrv with ⟨l, hl, hrvl⟩
    rcases List.mem_map.mp hl with ⟨o, ho, hlo⟩
    obtain ⟨brec, rr, pr⟩ := o
    rcases exMapM_mem_of_ok h2 _ ho with ⟨b, _, hb⟩
    rw [← hlo] at hrvl
    have := (normalizeBusiness_alias hb).1 rv hrvl
    exact ⟨brec, List.mem_map_of_mem (fun o => o.1) ho, this⟩
  · intro ph hph
    rcases List.mem_flatten.mp hph with ⟨l, hl, hphl⟩
    rcases List.mem_map.mp hl with ⟨o, ho, hlo⟩
    obtain ⟨brec, rr, pr⟩ := o
    rcases exMapM_mem_of_ok h2 _ ho with ⟨b, _, hb⟩
    rw [← hlo] at hphl
    have := (normalizeBusiness_alias hb).2 ph hphl
    exact ⟨brec, List.mem_map_of_mem (fun o => o.1) ho, this⟩

theorem FS.exists_write (fs : FS) (n c : String) :
    (fs.write n c).exists n = true := by
  simp [FS.write, FS.exists, List.lookup]

theorem FS.exists_write_mono {fs : FS} {m : String} (h : fs.exists m = true)
    (n c : String) : (fs.write n c).exists m = true := by
  simp only [FS.write, FS.exists, List.lookup]
  cases hb : m == n
  · simpa [hb, FS.exists] using h
  · simp [hb]

theorem download_photos_mono (net : String → Nat × String)
    (recs : List PhotoRecord) (fs : FS) {m : String} (h : fs.exists m = true) :
    ((download_photos net recs fs).1).exists m = true := by
  induction recs generalizing fs with
  | nil => exact h
  | cons r rest ih =>
    by_cases hex : fs.exists r.file_name
    · simp only [download_photos, hex, if_true]
      exact ih fs h
    · by_cases hst : (net r.photo_url).1 = 200
      · simp only [download_photos, hex, if_false, Bool.false_eq_true, hst, if_true]
        exact ih _ (FS.exists_write_mono h _ _)
      · simp only [download_photos, hex, if_false, Bool.false_eq_true, hst, if_true]
        exact ih fs h

theorem download_photos_all_exists (net : String → Nat × String)
    (recs : List PhotoRecord) (fs : FS)
    (hok : ∀ u ∈ (download_photos net recs fs).2, (net u).1 = 200) :
    ∀ r ∈ recs, ((download_photos net recs fs).1).exists r.file_name = true := by
  induction recs generalizing fs with
  | nil => intro r hr; cases hr
  | cons r0 rest ih =>
    intro r hr
    by_cases hex : fs.exists r0.file_name
    · have hdp : download_photos net (r0 :: rest) fs = download_photos net rest fs := by
        simp only [download_photos, hex, if_true]
      rw [hdp] at hok ⊢
      rcases List.mem_cons.mp hr with h1 | h2
      · rw [h1]
        exact download_photos_mono net rest fs hex
      · exact ih fs hok r h2
    · by_cases hst : (net r0.photo_url).1 = 200
      · have hdp : download_photos net (r0 :: rest) fs =
            ((download_photos net rest (fs.write r0.file_name (net r0.photo_url).2)).1,
             r0.photo_url ::
               (download_photos net rest (fs.write r0.file_name (net r0.photo_url).2)).2) := by
          simp only [download_photos, hex, Bool.false_eq_true, if_false, hst, if_true]
        rw [hdp] at hok ⊢
        have hok2 : ∀ u ∈ (download_photos net rest
            (fs.write r0.file_name (net r0.photo_url).2)).2, (net u).1 = 200 :=
          fun u hu => hok u (List.mem_cons_of_mem _ hu)
        rcases List.mem_cons.mp hr with h1 | h2
        · rw [h1]
          exact download_photos_mono net rest _ (FS.exists_write fs _ _)
        · exact ih _ hok2 r h2
      · exfalso
        have hdp : download_photos net (r0 :: rest) fs =
            ((download_photos net rest fs).1,
             r0.photo_url :: (download_photos net rest fs).2) := by
          simp only [download_photos, hex, Bool.false_eq_true, if_false, hst, if_true]
        rw [hdp] at hok
        exact hst (hok r0.photo_url (List.mem_cons_self _ _))

theorem download_photos_skip_all (net : String → Nat × String)
    (recs : List PhotoRecord) (fs : FS)
    (h : ∀ r ∈ recs, fs.exists r.file_name = true) :
    download_photos net recs fs = (fs, []) := by
  induction recs with
  | nil => rfl
  | cons r rest ih =>
    have hr := h r (List.mem_cons_self r rest)
    simp only [download_photos, hr, if_true]
    exact ih (fun r2 h2 => h r2 (List.mem_cons_of_mem r h2))

/-! ## Claims -/

/-- Claim C1: for every harvest run, the orchestrator issues exactly one page
fetch per location at each offset `0, 50, 100, 150` (the multiples of the
limit strictly below the 200-result cap), in that order, with no early
termination; the result is the per-page outputs concatenated over all
locations and offsets in iteration order. -/
theorem claim_C1 (net : String → Nat → HttpResponse) (locations : List String) :
    pyRangeStep yelpCount yelpLimit = [0, 50, 100, 150] ∧
    (get_yelp_data net locations).2 =
      Except.map (fun rs => rs.foldl Recs.app Recs.empty)
        (exMapM (fun p => processPage net p.1 p.2) (harvestPairs locations)) ∧
    (∀ r, (get_yelp_data net locations).2 = .ok r →
      (get_yelp_data net locations).1 = harvestPairs locations) := by
  refine ⟨rfl, harvestGo_res net (harvestPairs locations) Recs.empty, ?_⟩
  intro r h
  exact harvestGo_trace_of_ok net (harvestPairs locations) Recs.empty r h

theorem claim_C1_witness :
    (get_yelp_data okNet ["Paris"]).1 = harvestPairs ["Paris"] :=
  (claim_C1 okNet ["Paris"]).2.2 Recs.empty rfl

/-- Claim C2: for every business entry, the normalized parent-category list
contains each parent alias exactly once (it is duplicate-free and has the same
members as the raw parent alias list), and the category list is likewise
duplicate-free with exactly the category aliases of the business as members. -/
theorem claim_C2 (b : Business) (brec : BusinessRecord) (rr : List ReviewRecord)
    (pr : List PhotoRecord) (cats : List CategoryEntry)
    (parents : List (Option String))
    (h : normalizeBusiness b = .ok (brec, rr, pr))
    (hcats : b.categories.iterDefault = .ok cats)
    (hparents : parentAliasesRaw cats = .ok parents) :
    brec.business_parent_categories.Nodup ∧
    (∀ a, a ∈ brec.business_parent_categories ↔ a ∈ parents) ∧
    brec.business_categories.Nodup ∧
    (∀ a, a ∈ brec.business_categories ↔ ∃ c ∈ cats, c.alias_.toOption = a) := by
  obtain ⟨h1, _, _⟩ := normalizeBusiness_ok h
  obtain ⟨loc, coords, cats2, parents2, _, _, hc2, hp2, hrec⟩ := mkBusinessRecord_ok h1
  rw [hcats] at hc2
  injection hc2 with hceq
  subst hceq
  rw [hparents] at hp2
  injection hp2 with hpeq
  subst hpeq
  subst hrec
  refine ⟨List.nodup_dedup parents, fun a => List.mem_dedup, ?_, ?_⟩
  · exact List.nodup_dedup _
  · intro a
    simp only [catAliases]
    rw [List.mem_dedup, List.mem_map]

theorem claim_C2_witness :
    exBrec.business_parent_categories.Nodup ∧
    (some "food" ∈ exBrec.business_parent_categories ↔ some "food" ∈ exParentsRaw) ∧
    exBrec.business_categories.Nodup ∧
    (some "a" ∈ exBrec.business_categories ↔
      ∃ c ∈ exCats, c.alias_.toOption = some "a") := by
  have h := claim_C2 exBiz exBrec [] [] exCats exParentsRaw rfl rfl rfl
  exact ⟨h.1, h.2.1 (some "food"), h.2.2.1, h.2.2.2 (some "a")⟩

/-- Claim C3: a page fetch fails exactly when the transport status is not 200
or the parsed payload carries an `errors` key; and when the fetch for any pair
in the iteration fails, the whole harvest returns an error, so no partial
collections reach the caller. -/
theorem claim_C3 (net : String → Nat → HttpResponse) :
    (∀ l o, (∃ e, pageFetch net l o = .error e) ↔
      ((net l o).status ≠ 200 ∨ (net l o).body.errors ≠ JField.absent)) ∧
    (∀ locations p, p ∈ harvestPairs locations →
      (∃ e, pageFetch net p.1 p.2 = .error e) →
      ∃ e2, (get_yelp_data net locations).2 = .error e2) := by
  constructor
  · intro l o
    by_cases hs : (net l o).status = 200
    · cases hE : (net l o).body.errors with
      | absent => simp [pageFetch, hs, hE]
      | null => simp [pageFetch, hs, hE]
      | val es => simp [pageFetch, hs, hE]
    · simp [pageFetch, hs]
  · rintro locs p hp ⟨e, he⟩
    have hpp : processPage net p.1 p.2 = .error e := by
      simp [processPage, he, Except.bind, Bind.bind]
    rcases @exMapM_error_of_mem (String × Nat) Recs
      (fun q => processPage net q.1 q.2) (harvestPairs locs) p e hp hpp with ⟨e2, he2⟩
    have hres := harvestGo_res net (harvestPairs locs) Recs.empty
    rw [he2] at hres
    exact ⟨e2, hres⟩

theorem claim_C3_witness :
    ∃ e2, (get_yelp_data badNet ["Paris"]).2 = .error e2 :=
  (claim_C3 badNet).2 ["Paris"] ("Paris", 0) (by decide)
    (((claim_C3 badNet).1 "Paris" 0).mpr (Or.inl (by decide)))

/-- Claim C4: the photo cache key is the pure function
`alias ++ "_" ++ md5-hex of the UTF-8 encoded URL ++ ".jpg"`; every photo row
produced by normalization carries exactly this file name for its own URL, and
two different URLs give different names at a concrete instance. -/
theorem claim_C4 :
    (∀ a url, fileName a url = a ++ "_" ++ md5HexOfString url ++ ".jpg") ∧
    (∀ b pr, mkPhotoRecords b = .ok pr → ∀ ph ∈ pr,
      ∃ a2, b.alias_.toOption = some a2 ∧
        ph.file_name = a2 ++ "_" ++ md5HexOfString ph.photo_url ++ ".jpg") ∧
    fileName "biz" "photo-url-1" ≠ fileName "biz" "photo-url-2" := by
  refine ⟨fun a url => rfl, ?_, by decide⟩
  intro b pr h ph hph
  rcases exMapM_mem_of_ok h ph hph with ⟨url, _, hurl⟩
  rcases mkPhotoRecord_ok hurl with ⟨a2, ha, hrec⟩
  refine ⟨a2, ha, ?_⟩
  rw [hrec]
  simp [fileName]

theorem claim_C4_witness :
    ∃ a2, photoBiz.alias_.toOption = some a2 ∧
      exPhotoRec.file_name = a2 ++ "_" ++ md5HexOfString exPhotoRec.photo_url ++ ".jpg" :=
  claim_C4.2.1 photoBiz [exPhotoRec] rfl exPhotoRec (List.mem_singleton_self _)

/-- Claim C5 counterexample: with an oracle that always answers 404 and one
photo row, the first run writes nothing, so the second run against the
resulting directory issues a download again — the download list of the
second run is not empty, contradicting the unconditional zero-download claim. -/
theorem claim_C5_counterexample :
    (download_photos failNet [rec5]
      (download_photos failNet [rec5] ([] : FS)).1).2 ≠ [] := by
  decide

/-- Claim C5 (amended): a photo row whose file already exists is skipped
without any download; and provided every download attempted in the first run
returns status 200, a second run over the same records and the resulting
directory performs zero downloads and leaves the directory unchanged. -/
theorem claim_C5 (net : String → Nat × String) (recs : List PhotoRecord)
    (fs : FS)
    (hok : ∀ u ∈ (download_photos net recs fs).2, (net u).1 = 200) :
    download_photos net recs (download_photos net recs fs).1 =
      ((download_photos net recs fs).1, []) ∧
    (∀ r rest, fs.exists r.file_name = true →
      download_photos net (r :: rest) fs = download_photos net rest fs) := by
  constructor
  · exact download_photos_skip_all net recs _
      (download_photos_all_exists net recs fs hok)
  · intro r rest hex
    simp only [download_photos, hex, if_true]

theorem claim_C5_witness :
    download_photos goodNet [rec5] (download_photos goodNet [rec5] ([] : FS)).1 =
      ((download_photos goodNet [rec5] ([] : FS)).1, []) :=
  (claim_C5 goodNet [rec5] [] (by decide)).1

/-- Claim C6: the normalized price tier is 0 when the price field is absent
and the character length of the price string otherwise. -/
theorem claim_C6 (b : Business) (brec : BusinessRecord) (rr : List ReviewRecord)
    (pr : List PhotoRecord) (h : normalizeBusiness b = .ok (brec, rr, pr)) :
    (b.price = JField.absent → brec.business_price = 0) ∧
    (∀ s, b.price = JField.val s → brec.business_price = s.length) := by
  obtain ⟨h1, _, _⟩ := normalizeBusiness_ok h
  obtain ⟨loc, coords, cats, parents, _, _, _, _, hrec⟩ := mkBusinessRecord_ok h1
  subst hrec
  constructor
  · intro hp
    simp [priceTier, hp, JField.toOption]
  · intro s hp
    simp [priceTier, hp, JField.toOption]

theorem claim_C6_witness :
    brecP2.business_price = 2 ∧ emptyBrec.business_price = 0 :=
  ⟨(claim_C6 bizP2 brecP2 [] [] rfl).2 "$$" rfl,
   (claim_C6 emptyBiz emptyBrec [] [] rfl).1 rfl⟩

/-- Claim C7: a page payload in which the `data.search.business` list is
absent (the `data` key absent, or the `search` key absent, or the `business`
key absent) normalizes to three empty record sequences, not an error. -/
theorem claim_C7 (p : Payload)
    (h : p.data_ = JField.absent ∨ ∃ d, p.data_ = JField.val d ∧
      (d.search = JField.absent ∨ ∃ s, d.search = JField.val s ∧
        s.business = JField.absent)) :
    normalizePage p = .ok Recs.empty := by
  have hbs : getBusinessList p = .ok [] := by
    rcases h with h | ⟨d, hd, h | ⟨s, hs, hb⟩⟩
    · simp [getBusinessList, h, JField.getObj, DataObj.empty, SearchObj.empty,
        JField.iterDefault, Except.bind, Bind.bind]
    · simp [getBusinessList, hd, h, JField.getObj, SearchObj.empty,
        JField.iterDefault, Except.bind, Bind.bind]
    · simp [getBusinessList, hd, hs, hb, JField.getObj, JField.iterDefault,
        Except.bind, Bind.bind]
  simp [normalizePage, hbs, exMapM, Except.bind, Bind.bind, Pure.pure,
    Except.pure, Recs.empty]

theorem claim_C7_witness :
    normalizePage { errors := JField.absent, data_ := JField.absent } =
      .ok Recs.empty :=
  claim_C7 { errors := JField.absent, data_ := JField.absent } (Or.inl rfl)

/-- Claim C8: photo downloads are best-effort — a row whose file is missing
and whose download fails is recorded as attempted and skipped while the rest
of the batch is processed against the unchanged directory; and every row of
the batch whose download succeeds ends up materialized. -/
theorem claim_C8 (net : String → Nat × String) :
    (∀ r rest fs, fs.exists r.file_name = false → (net r.photo_url).1 ≠ 200 →
      download_photos net (r :: rest) fs =
        ((download_photos net rest fs).1,
         r.photo_url :: (download_photos net rest fs).2)) ∧
    (∀ recs fs r, r ∈ recs → (net r.photo_url).1 = 200 →
      ((download_photos net recs fs).1).exists r.file_name = true) := by
  constructor
  · intro r rest fs hex hst
    simp only [download_photos, hex, Bool.false_eq_true, if_false, hst, if_true]
  · intro recs
    induction recs with
    | nil =>
      intro fs r hr
      cases hr
    | cons r0 rest ih =>
      intro fs r hr hst
      by_cases hex : fs.exists r0.file_name
      · simp only [download_photos, hex, if_true]
        rcases List.mem_cons.mp hr with h1 | h2
        · rw [h1]
          exact download_photos_mono net rest fs hex
        · exact ih fs r h2 hst
      · by_cases hst0 : (net r0.photo_url).1 = 200
        · simp only [download_photos, hex, Bool.false_eq_true, if_false, hst0,
            if_true]
          rcases List.mem_cons.mp hr with h1 | h2
          · rw [h1]
            exact download_photos_mono net rest _ (FS.exists_write fs _ _)
          · exact ih _ r h2 hst
        · simp only [download_photos, hex, Bool.false_eq_true, if_false, hst0,
            if_true]
          rcases List.mem_cons.mp hr with h1 | h2
          · exact absurd (h1 ▸ hst) hst0
          · exact ih fs r h2 hst

theorem claim_C8_witness :
    download_photos mixedNet [rec5, rec8] ([] : FS) =
      ((download_photos mixedNet [rec8] ([] : FS)).1,
       rec5.photo_url :: (download_photos mixedNet [rec8] ([] : FS)).2) ∧
    ((download_photos mixedNet [rec5, rec8] ([] : FS)).1).exists rec8.file_name
      = true :=
  ⟨(claim_C8 mixedNet).1 rec5 [rec8] [] rfl (by decide),
   (claim_C8 mixedNet).2 [rec5, rec8] [] rec8 (by decide) (by decide)⟩

/-- Claim C9: referential integrity — every review and photo row produced for
one business entry carries the alias of that same entry, and in any successful
harvest every review and photo row carries the alias of some business row of
the output. -/
theorem claim_C9 :
    (∀ b brec rr pr, normalizeBusiness b = .ok (brec, rr, pr) →
      (∀ rv ∈ rr, rv.business_alias = brec.business_alias) ∧
      (∀ ph ∈ pr, ph.business_alias = brec.business_alias)) ∧
    (∀ net locations out,
      (get_yelp_data net locations).2 = .ok out → out.intact) := by
  constructor
  · intro b brec rr pr h
    exact normalizeBusiness_alias h
  · intro net locs out h
    have hres := harvestGo_res net (harvestPairs locs) Recs.empty
    rw [show (get_yelp_data net locs).2 =
      (harvestGo net (harvestPairs locs) Recs.empty).2 from rfl, hres] at h
    rcases exceptMap_ok h with ⟨rs, hrs, hout⟩
    subst hout
    apply foldl_app_intact rs Recs.empty Recs.empty_intact
    intro r hr
    rcases exMapM_mem_of_ok hrs r hr with ⟨p, _, hp⟩
    rcases processPage_ok hp with ⟨pl, _, hnorm⟩
    exact normalizePage_intact hnorm

theorem claim_C9_witness :
    ((∀ rv ∈ ([] : List ReviewRecord),
        rv.business_alias = emptyBrec.business_alias) ∧
     (∀ ph ∈ ([] : List PhotoRecord),
        ph.business_alias = emptyBrec.business_alias)) ∧
    Recs.empty.intact :=
  ⟨claim_C9.1 emptyBiz emptyBrec [] [] rfl,
   claim_C9.2 okNet ["Paris"] Recs.empty rfl⟩

/-- Claim C10: a `photos` or `reviews` field that is present but `null` is
treated as an empty list (zero photo and review rows, no error), while a
`categories` field that is present but `null` makes normalization raise. -/
theorem claim_C10 :
    (∀ b brec rr pr, normalizeBusiness b = .ok (brec, rr, pr) →
      (b.photos = JField.null → pr = []) ∧
      (b.reviews = JField.null → rr = [])) ∧
    (∀ b, b.categories = JField.null → ∃ e, normalizeBusiness b = .error e) := by
  constructor
  · intro b brec rr pr h
    obtain ⟨_, h2, h3⟩ := normalizeBusiness_ok h
    constructor
    · intro hp
      have hnil : mkPhotoRecords b = .ok [] := by
        simp [mkPhotoRecords, hp, JField.iterOrEmpty, exMapM]
      injection hnil.symm.trans h2 with hh
      exact hh.symm
    · intro hr
      rw [h3]
      simp [mkReviewRecords, hr, JField.iterOrEmpty]
  · intro b hc
    cases hl : b.location.getObj LocationObj.empty with
    | error e =>
      exact ⟨e, by simp [normalizeBusiness, mkBusinessRecord, hl, Except.bind,
        Bind.bind]⟩
    | ok loc =>
      cases hco : b.coordinates.getObj Coordinates.empty with
      | error e =>
        exact ⟨e, by simp [normalizeBusiness, mkBusinessRecord, hl, hco,
          Except.bind, Bind.bind]⟩
      | ok coords =>
        refine ⟨.typeError "NoneType object is not iterable", ?_⟩
        simp [normalizeBusiness, mkBusinessRecord, hl, hco, hc,
          JField.iterDefault, Except.bind, Bind.bind]

theorem claim_C10_witness :
    (([] : List PhotoRecord) = [] ∧ ([] : List ReviewRecord) = []) ∧
    ∃ e, normalizeBusiness catNullBiz = .error e :=
  ⟨⟨(claim_C10.1 nullBiz emptyBrec [] [] rfl).1 rfl,
    (claim_C10.1 nullBiz emptyBrec [] [] rfl).2 rfl⟩,
   claim_C10.2 catNullBiz rfl⟩
